import Mathlib

/-!
Verification of the CI log-intelligence subsystem of startup-blueprint.

The subsystem under study lives in three Python files:
  .crewai/tools/ci_output_parser_tool.py  (format parsers, aggregator, job discovery)
  .crewai/tools/ci_tools.py               (log accessor and search engine)
  .crewai/tools/workspace_tool.py         (bounded workspace reads)

Text is modelled as the list of its characters (`Str`).  File contents are
passed in directly; filesystem reads, logging and the surrounding agent
framework are elided.  The Python regular expressions are transliterated into
a small backtracking matcher (`RE` / `matchRE`) whose alternation order,
greedy/lazy quantifier order and leftmost-search order mirror the semantics of
the Python `re` module for the pattern forms that actually occur in the source
(all quantifiers in the source patterns range over single-character classes).
-/

/-- A chunk of text, modelled as the list of its characters. -/
abbrev Str := List Char

/-- Python regex class `\d` (ASCII input). -/
def pyDigit (c : Char) : Bool := c.isDigit

/-- Python regex class `\w` (ASCII input): letters, digits, underscore. -/
def pyWordChar (c : Char) : Bool := c.isAlphanum || c = '_'

/-- Python regex class `\s` (ASCII input). -/
def pySpace (c : Char) : Bool :=
  c = ' ' || c = '\t' || c = '\n' || c = '\r' || c = '\x0b' || c = '\x0c'

/-- Python regex class `\S`. -/
def pyNonspace (c : Char) : Bool := !(pySpace c)

/-- Python regex `.` without re.DOTALL: any character except newline. -/
def anyCharNoNL (c : Char) : Bool := c != '\n'

/-- Python regex `.` under re.DOTALL: any character. -/
def anyCharDotAll (_ : Char) : Bool := true

/-- Python regex class `[^\]]`. -/
def notRBracket (c : Char) : Bool := c != ']'

/-- Python substring test `needle in hay`. -/
def containsStr : Str → Str → Bool
  | hay, needle =>
    if needle.isPrefixOf hay then true
    else
      match hay with
      | [] => false
      | _ :: t => containsStr t needle

/-- Python `str.lower()` (ASCII input). -/
def lowerStr (s : Str) : Str := s.map Char.toLower

/-- Python `str.strip()` (ASCII whitespace). -/
def pyStrip (s : Str) : Str :=
  ((s.dropWhile pySpace).reverse.dropWhile pySpace).reverse

/-- Regular-expression abstract syntax, covering exactly the pattern forms used
by the source.  Quantifiers (`starC`, `plusC`) range over single-character
classes, which is the only way they occur in the source patterns; `lazy = true`
selects the non-greedy variant (`*?` / `+?`). -/
inductive RE where
  | lit (s : Str)
  | cls (p : Char → Bool)
  | starC (lazy : Bool) (p : Char → Bool)
  | plusC (lazy : Bool) (p : Char → Bool)
  | seq (a b : RE)
  | alt (a b : RE)
  | group (n : Nat) (r : RE)
  | look (r : RE)
  | bol (multiline : Bool)
  | eol (multiline : Bool)

/-- Sequence a list of regex nodes. -/
def reSeq (rs : List RE) : RE := rs.foldr RE.seq (RE.lit [])

/-- Literal regex from a string literal. -/
def reStr (s : String) : RE := RE.lit s.data

/-- Captured groups of a match: (group index, start offset, end offset). -/
abbrev Caps := List (Nat × Nat × Nat)

/-- Does the literal `s` occur in `input` starting at offset `i`? -/
def litAt (input s : Str) (i : Nat) : Bool := s.isPrefixOf (input.drop i)

/-- Length of the maximal run of characters satisfying `p`. -/
def runLen (p : Char → Bool) : Str → Nat
  | [] => 0
  | c :: cs => if p c then runLen p cs + 1 else 0

/-- Try continuation `k` at offsets `i + n, i + n - 1, …, i` (greedy backtracking order). -/
def tryDesc (k : Nat → Option (Nat × Caps)) (i : Nat) : Nat → Option (Nat × Caps)
  | 0 => k i
  | n + 1 => (k (i + n + 1)).orElse (fun _ => tryDesc k i n)

/-- Try continuation `k` at offsets `i, i + 1, …, i + n` (lazy backtracking order). -/
def tryAsc (k : Nat → Option (Nat × Caps)) (i : Nat) : Nat → Option (Nat × Caps)
  | 0 => k i
  | n + 1 => (k i).orElse (fun _ => tryAsc k (i + 1) n)

/-- Backtracking matcher in continuation-passing style.  `matchRE input r i caps k`
attempts to match `r` in `input` at offset `i` and calls `k` with the offset
after the match and the accumulated captures; alternatives are tried in the
same order as the Python `re` backtracking engine. -/
def matchRE (input : Str) (r : RE) (i : Nat) (caps : Caps)
    (k : Nat → Caps → Option (Nat × Caps)) : Option (Nat × Caps) :=
  match r with
  | .lit s => if litAt input s i then k (i + s.length) caps else none
  | .cls p =>
    match input.get? i with
    | some c => if p c then k (i + 1) caps else none
    | none => none
  | .starC lz p =>
    let n := runLen p (input.drop i)
    if lz then tryAsc (fun j => k j caps) i n else tryDesc (fun j => k j caps) i n
  | .plusC lz p =>
    match runLen p (input.drop i) with
    | 0 => none
    | m + 1 =>
      if lz then tryAsc (fun j => k j caps) (i + 1) m
      else tryDesc (fun j => k j caps) (i + 1) m
  | .seq a b => matchRE input a i caps (fun j caps2 => matchRE input b j caps2 k)
  | .alt a b => (matchRE input a i caps k).orElse (fun _ => matchRE input b i caps k)
  | .group n r0 => matchRE input r0 i caps (fun j caps2 => k j ((n, i, j) :: caps2))
  | .look r0 =>
    match matchRE input r0 i caps (fun j caps2 => some (j, caps2)) with
    | some _ => k i caps
    | none => none
  | .bol ml =>
    if i = 0 || (ml && input.get? (i - 1) == some '\n') then k i caps else none
  | .eol ml =>
    if (if ml then i == input.length || input.get? i == some '\n'
        else i == input.length || (i + 1 == input.length && input.get? i == some '\n'))
    then k i caps else none

/-- Anchored match attempt at offset `i` (Python `re.match` when `i = 0`).
Returns the end offset and captures of the first match found. -/
def reMatchAt (input : Str) (r : RE) (i : Nat) : Option (Nat × Caps) :=
  matchRE input r i [] (fun j caps => some (j, caps))

/-- Scan offsets `i, i + 1, …` for the leftmost match; `gas` bounds the scan. -/
def reSearchAux (input : Str) (r : RE) : Nat → Nat → Option (Nat × Nat × Caps)
  | _, 0 => none
  | i, gas + 1 =>
    match reMatchAt input r i with
    | some (e, caps) => some (i, e, caps)
    | none => reSearchAux input r (i + 1) gas

/-- Python `re.search`: leftmost match as (start, end, captures). -/
def reSearch (input : Str) (r : RE) : Option (Nat × Nat × Caps) :=
  reSearchAux input r 0 (input.length + 1)

/-- Scan for successive non-overlapping matches; `gas` bounds the scan. -/
def reFinditerAux (input : Str) (r : RE) : Nat → Nat → List (Nat × Nat × Caps)
  | _, 0 => []
  | i, gas + 1 =>
    match reSearchAux input r i (gas + 1) with
    | none => []
    | some (s, e, caps) => (s, e, caps) :: reFinditerAux input r (if s < e then e else s + 1) gas

/-- Python `re.finditer`: all non-overlapping matches, left to right. -/
def reFinditer (input : Str) (r : RE) : List (Nat × Nat × Caps) :=
  reFinditerAux input r 0 (input.length + 1)

/-- Offsets (start, end) recorded for capture group `n`, if the group matched. -/
def capBounds (caps : Caps) (n : Nat) : Option (Nat × Nat) :=
  (caps.find? (fun x => x.1 == n)).map (fun x => (x.2.1, x.2.2))

/-- The slice of `s` between offsets `a` (inclusive) and `b` (exclusive). -/
def sliceStr (s : Str) (a b : Nat) : Str := (s.drop a).take (b - a)

/-- Text of capture group `n` (empty if the group is absent). -/
def capStr (input : Str) (caps : Caps) (n : Nat) : Str :=
  match capBounds caps n with
  | some (a, b) => sliceStr input a b
  | none => []

/-- Final byte class `[@-~]` of the ANSI escape pattern in
`CIOutputParserTool._parse_stylelint`. -/
def ansiFinal (c : Char) : Bool := '@' ≤ c && c ≤ '~'

/-- Intermediate byte class of the ANSI escape pattern: the range `\x20`..`\x2f`. -/
def ansiInter (c : Char) : Bool := ' ' ≤ c && c ≤ '/'

/-- Parameter byte class `[0-?]` of the ANSI escape pattern. -/
def ansiParam (c : Char) : Bool := '0' ≤ c && c ≤ '?'

/-- Single-character class `[@-Z\\-_]` of the ANSI escape pattern: the ranges
`@`..`Z` and `\`..`_` (the escaped backslash is the lower end of a range). -/
def ansiSingle (c : Char) : Bool := ('@' ≤ c && c ≤ 'Z') || ('\\' ≤ c && c ≤ '_')

/-- Number of characters an ANSI escape sequence consumes after its ESC byte,
per the source pattern: ESC followed either by one character of `ansiSingle`,
or by `[`, then `ansiParam`-star, then `ansiInter`-star, then one `ansiFinal`
character; `none` when no escape sequence starts here.  The three classes of
the bracketed alternative are pairwise disjoint, so the greedy stars never
backtrack and the match length is unique. -/
def ansiTailLen (s : Str) : Option Nat :=
  match s with
  | [] => none
  | c :: cs =>
    if ansiSingle c then some 1
    else if c = '[' then
      let ps := runLen ansiParam cs
      let is := runLen ansiInter (cs.drop ps)
      match (cs.drop (ps + is)).head? with
      | some f => if ansiFinal f then some (1 + ps + is + 1) else none
      | none => none
    else none

/-- Recursion worker for `stripAnsi`; the fuel is an upper bound on the number
of characters left and makes the recursion structural (each step consumes at
least one character, so fuel equal to the length of the text suffices). -/
def stripAnsiAux : Nat → Str → Str
  | 0, s => s
  | _, [] => []
  | fuel + 1, c :: cs =>
    if c = '\x1b' then
      match ansiTailLen cs with
      | some n => stripAnsiAux fuel (cs.drop n)
      | none => c :: stripAnsiAux fuel cs
    else c :: stripAnsiAux fuel cs

/-- Python `ansi_escape.sub("", s)` for the ANSI pattern above: delete each
non-overlapping match, scanning left to right.  A failed attempt at an ESC
character keeps that character; no match can start at a non-ESC character. -/
def stripAnsi (s : Str) : Str := stripAnsiAux s.length s

/-- Schema for a CI error/warning (`CIError` in ci_output_parser_tool.py).
Field names and defaults follow the pydantic model. -/
structure CIError where
  tool : String
  type : String
  severity : String
  file : String
  line : String
  column : String := ""
  message : String
  code : String := ""
  context : String := ""
  fix_suggestion : String := ""
deriving DecidableEq, Repr

/-- Pattern of `_parse_sqlfluff` (re.MULTILINE and re.DOTALL):
`L:` `\s*` `(\d+)` `\s*` `\|` `\s*` `P:` `\s*` `(\d+)` `\s*` `\|` `\s*` `(\w+)`
`\s*` `\|` `\s*` lazy `(.+?)` followed by a lookahead for `\nL:`, `\n==`,
`\n\n` or end of line. -/
def sqlfluffRE : RE :=
  reSeq [reStr "L:", .starC false pySpace, .group 1 (.plusC false pyDigit),
    .starC false pySpace, reStr "|", .starC false pySpace, reStr "P:",
    .starC false pySpace, .group 2 (.plusC false pyDigit), .starC false pySpace,
    reStr "|", .starC false pySpace, .group 3 (.plusC false pyWordChar),
    .starC false pySpace, reStr "|", .starC false pySpace,
    .group 4 (.plusC true anyCharDotAll),
    .look (.alt (reStr "\nL:") (.alt (reStr "\n==") (.alt (reStr "\n\n") (.eol true))))]

/-- File-marker pattern of `_parse_sqlfluff`: `\[` `([^\]]+)` `\]` `\s*` `FAIL`,
searched in the text before the current match. -/
def sqlfluffFileRE : RE :=
  reSeq [reStr "[", .group 1 (.plusC false notRBracket), reStr "]",
    .starC false pySpace, reStr "FAIL"]

/-- `CIOutputParserTool._parse_sqlfluff`. -/
def parse_sqlfluff (content : Str) : List CIError :=
  (reFinditer content sqlfluffRE).map (fun m =>
    let filePath :=
      match reSearch (content.take m.1) sqlfluffFileRE with
      | some (_, _, fcaps) => String.mk (capStr (content.take m.1) fcaps 1)
      | none => "unknown.sql"
    { tool := "sqlfluff", type := "SQL Lint Error", severity := "warning",
      file := filePath,
      line := String.mk (capStr content m.2.2 1),
      column := String.mk (capStr content m.2.2 2),
      message := String.mk (pyStrip (capStr content m.2.2 4)),
      code := String.mk (capStr content m.2.2 3),
      fix_suggestion := "Review SQL syntax and follow best practices" })

/-- Section pattern of `_parse_stylelint` (re.DOTALL):
`--- stylelint ---` then lazy `(.+?)` followed by a lookahead for
`--- ` `\w+` ` ---` or end of input. -/
def stylelintSectionRE : RE :=
  reSeq [reStr "--- stylelint ---", .group 1 (.plusC true anyCharDotAll),
    .look (.alt (reSeq [reStr "--- ", .plusC false pyWordChar, reStr " ---"]) (.eol false))]

/-- File pattern of `_parse_stylelint` (re.MULTILINE): `^` `\s*` then one of
`\S+` `\.css`, `\.scss`, `\.less` as group 1. -/
def stylelintFileRE : RE :=
  reSeq [.bol true, .starC false pySpace,
    .group 1 (.alt (reSeq [.plusC false pyNonspace, reStr ".css"])
      (.alt (reStr ".scss") (reStr ".less")))]

/-- Per-line pattern of `_parse_stylelint` (re.MULTILINE): `\s*` `(\d+)` `:`
`(\d+)` `\s+` `✖` `\s+` lazy `(.+?)` then at least two `\s`, `(\S+)`, `\s*`,
end of line. -/
def stylelintLineRE : RE :=
  reSeq [.starC false pySpace, .group 1 (.plusC false pyDigit), reStr ":",
    .group 2 (.plusC false pyDigit), .plusC false pySpace, reStr "✖",
    .plusC false pySpace, .group 3 (.plusC true anyCharNoNL),
    .cls pySpace, .cls pySpace, .starC false pySpace,
    .group 4 (.plusC false pyNonspace), .starC false pySpace, .eol true]

/-- Severity rule of `_parse_stylelint`: `critical` when the rule contains
`error` or the message contains `invalid`, `error` or `fail` (lowercased),
else `warning`. -/
def stylelintSeverity (message rule : Str) : String :=
  if containsStr (lowerStr rule) "error".data
      || containsStr (lowerStr message) "invalid".data
      || containsStr (lowerStr message) "error".data
      || containsStr (lowerStr message) "fail".data
  then "critical" else "warning"

/-- Body of `_parse_stylelint` after the ANSI strip: file search and per-line
finding extraction over the (stripped) stylelint section. -/
def stylelintFindings (sec : Str) : List CIError :=
  let filePath :=
    match reSearch sec stylelintFileRE with
    | some (_, _, caps) => String.mk (capStr sec caps 1)
    | none => "unknown.css"
  (reFinditer sec stylelintLineRE).map (fun m =>
    let message := pyStrip (capStr sec m.2.2 3)
    let rule := pyStrip (capStr sec m.2.2 4)
    { tool := "stylelint", type := "CSS Lint Error",
      severity := stylelintSeverity message rule,
      file := filePath,
      line := String.mk (capStr sec m.2.2 1),
      column := String.mk (capStr sec m.2.2 2),
      message := String.mk message,
      code := String.mk rule,
      fix_suggestion := "Fix CSS linting issue: " ++ String.mk rule })

/-- `CIOutputParserTool._parse_stylelint`: extract the stylelint section,
strip ANSI escape codes from it (this parser, and only this parser, strips
ANSI itself), then extract findings. -/
def parse_stylelint (content : Str) : List CIError :=
  match reSearch content stylelintSectionRE with
  | none => []
  | some (_, _, caps) =>
    match capBounds caps 1 with
    | none => []
    | some (a, b) => stylelintFindings (stripAnsi (sliceStr content a b))

/-- Pattern of `_parse_markdownlint`: `(.+\.md)` `:` `(\d+)` optional `:`
`(\d*)` `\s+` `(MD\w+)` `\s+` `(.+)`. -/
def markdownlintRE : RE :=
  reSeq [.group 1 (reSeq [.plusC false anyCharNoNL, reStr ".md"]), reStr ":",
    .group 2 (.plusC false pyDigit), .alt (reStr ":") (reStr ""),
    .group 3 (.starC false pyDigit), .plusC false pySpace,
    .group 4 (reSeq [reStr "MD", .plusC false pyWordChar]),
    .plusC false pySpace, .group 5 (.plusC false anyCharNoNL)]

/-- `CIOutputParserTool._parse_markdownlint`. -/
def parse_markdownlint (content : Str) : List CIError :=
  (reFinditer content markdownlintRE).map (fun m =>
    let code := String.mk (capStr content m.2.2 4)
    { tool := "markdownlint", type := "Markdown Lint Error", severity := "info",
      file := String.mk (capStr content m.2.2 1),
      line := String.mk (capStr content m.2.2 2),
      column := String.mk (capStr content m.2.2 3),
      message := String.mk (pyStrip (capStr content m.2.2 5)),
      code := code,
      fix_suggestion := "Fix markdown linting rule " ++ code })

/-- Pattern of `_parse_commitlint`: `✖` `\s+` lazy `(.+?)` `\s*` `\[` `([^\]]+)` `\]`. -/
def commitlintRE : RE :=
  reSeq [reStr "✖", .plusC false pySpace, .group 1 (.plusC true anyCharNoNL),
    .starC false pySpace, reStr "[", .group 2 (.plusC false notRBracket), reStr "]"]

/-- `CIOutputParserTool._parse_commitlint`. -/
def parse_commitlint (content : Str) : List CIError :=
  (reFinditer content commitlintRE).map (fun m =>
    { tool := "commitlint", type := "Commit Message Error", severity := "warning",
      file := "commit message", line := "",
      message := String.mk (pyStrip (capStr content m.2.2 1)),
      code := String.mk (capStr content m.2.2 2),
      fix_suggestion := "Follow conventional commit format" })

/-- Pattern of `_parse_prettier`: `\[warn\]` `\s+` then lazy `(.+?\.\w+)`. -/
def prettierRE : RE :=
  reSeq [reStr "[warn]", .plusC false pySpace,
    .group 1 (reSeq [.plusC true anyCharNoNL, reStr ".", .plusC false pyWordChar])]

/-- `CIOutputParserTool._parse_prettier`. -/
def parse_prettier (content : Str) : List CIError :=
  (reFinditer content prettierRE).map (fun m =>
    { tool := "prettier", type := "Format Warning", severity := "info",
      file := String.mk (capStr content m.2.2 1), line := "",
      message := "File needs formatting",
      fix_suggestion := "Run prettier to auto-format" })

/-- Pattern of `_parse_black`: `would reformat` `\s+` `(.+\.py)`. -/
def blackRE : RE :=
  reSeq [reStr "would reformat", .plusC false pySpace,
    .group 1 (reSeq [.plusC false anyCharNoNL, reStr ".py"])]

/-- `CIOutputParserTool._parse_black`. -/
def parse_black (content : Str) : List CIError :=
  (reFinditer content blackRE).map (fun m =>
    { tool := "black", type := "Format Warning", severity := "info",
      file := String.mk (capStr content m.2.2 1), line := "",
      message := "File needs formatting",
      fix_suggestion := "Run black to auto-format Python code" })

/-- Pattern of `_parse_isort`: `ERROR:` `\s*` `(.+\.py)` `\s+`
`Imports are incorrectly sorted`. -/
def isortRE : RE :=
  reSeq [reStr "ERROR:", .starC false pySpace,
    .group 1 (reSeq [.plusC false anyCharNoNL, reStr ".py"]),
    .plusC false pySpace, reStr "Imports are incorrectly sorted"]

/-- `CIOutputParserTool._parse_isort`. -/
def parse_isort (content : Str) : List CIError :=
  (reFinditer content isortRE).map (fun m =>
    { tool := "isort", type := "Import Order Error", severity := "warning",
      file := String.mk (capStr content m.2.2 1), line := "",
      message := "Imports are incorrectly sorted",
      fix_suggestion := "Run isort to fix import order" })

/-- Pattern of `_parse_ruff`: `(.+\.py)` `:` `(\d+)` `:` `(\d+)` `:` `\s*`
`(\w+)` `\s+` `(.+)`. -/
def ruffRE : RE :=
  reSeq [.group 1 (reSeq [.plusC false anyCharNoNL, reStr ".py"]), reStr ":",
    .group 2 (.plusC false pyDigit), reStr ":", .group 3 (.plusC false pyDigit),
    reStr ":", .starC false pySpace, .group 4 (.plusC false pyWordChar),
    .plusC false pySpace, .group 5 (.plusC false anyCharNoNL)]

/-- `CIOutputParserTool._parse_ruff`: severity is `critical` when the rule code
starts with `E` or `F`, else `warning`. -/
def parse_ruff (content : Str) : List CIError :=
  (reFinditer content ruffRE).map (fun m =>
    let code := capStr content m.2.2 4
    let sev := match code with
      | c :: _ => if c = 'E' || c = 'F' then "critical" else "warning"
      | [] => "warning"
    { tool := "ruff", type := "Python Lint Error", severity := sev,
      file := String.mk (capStr content m.2.2 1),
      line := String.mk (capStr content m.2.2 2),
      column := String.mk (capStr content m.2.2 3),
      message := String.mk (pyStrip (capStr content m.2.2 5)),
      code := String.mk code,
      fix_suggestion := "Fix ruff error " ++ String.mk code })

/-- Python `content.split("\n")`. -/
def splitNL : Str → List Str
  | [] => [[]]
  | c :: cs =>
    if c = '\n' then [] :: splitNL cs
    else
      match splitNL cs with
      | l :: ls => (c :: l) :: ls
      | [] => [[c]]

/-- File-path line pattern of `_parse_eslint`, matched anchored per line:
`^` `(/.+\.\w+)` `$`. -/
def eslintFileRE : RE :=
  reSeq [.group 1 (reSeq [reStr "/", .plusC false anyCharNoNL, reStr ".",
    .plusC false pyWordChar]), .eol false]

/-- Error line pattern of `_parse_eslint`, matched anchored per line:
`\s+` `(\d+)` `:` `(\d+)` `\s+` `(error|warning)` `\s+` lazy `(.+?)` `\s+`
`(\S+)` `\s*` `$`. -/
def eslintErrRE : RE :=
  reSeq [.plusC false pySpace, .group 1 (.plusC false pyDigit), reStr ":",
    .group 2 (.plusC false pyDigit), .plusC false pySpace,
    .group 3 (.alt (reStr "error") (reStr "warning")), .plusC false pySpace,
    .group 4 (.plusC true anyCharNoNL), .plusC false pySpace,
    .group 5 (.plusC false pyNonspace), .starC false pySpace, .eol false]

/-- `CIOutputParserTool._parse_eslint`: stateful scan over the lines, keeping
the most recent file-path line as the current file. -/
def parse_eslint (content : Str) : List CIError :=
  ((splitNL content).foldl
    (fun (st : Option String × List CIError) (line : Str) =>
      match reMatchAt line eslintFileRE 0 with
      | some (_, caps) => (some (String.mk (capStr line caps 1)), st.2)
      | none =>
        match reMatchAt line eslintErrRE 0, st.1 with
        | some (_, caps), some curFile =>
          let rule := String.mk (capStr line caps 5)
          let sev := if capStr line caps 3 = "error".data then "critical" else "warning"
          let err : CIError :=
            { tool := "eslint", type := "JavaScript/TypeScript Lint Error",
              severity := sev, file := curFile,
              line := String.mk (capStr line caps 1),
              column := String.mk (capStr line caps 2),
              message := String.mk (pyStrip (capStr line caps 4)),
              code := rule,
              fix_suggestion := "Fix eslint rule " ++ rule }
          (st.1, st.2 ++ [err])
        | _, _ => st)
    (none, [])).2

/-- Pattern of `_parse_mypy`: `(.+\.py)` `:` `(\d+)` `:` `\s*`
`(error|warning|note)` `:` `\s*` `(.+)`. -/
def mypyRE : RE :=
  reSeq [.group 1 (reSeq [.plusC false anyCharNoNL, reStr ".py"]), reStr ":",
    .group 2 (.plusC false pyDigit), reStr ":", .starC false pySpace,
    .group 3 (.alt (reStr "error") (.alt (reStr "warning") (reStr "note"))),
    reStr ":", .starC false pySpace, .group 4 (.plusC false anyCharNoNL)]

/-- `CIOutputParserTool._parse_mypy`: severity `critical` for `error`,
`warning` for `warning`, `info` otherwise. -/
def parse_mypy (content : Str) : List CIError :=
  (reFinditer content mypyRE).map (fun m =>
    let msgType := capStr content m.2.2 3
    let sev := if msgType = "error".data then "critical"
      else if msgType = "warning".data then "warning" else "info"
    { tool := "mypy", type := "Type Error", severity := sev,
      file := String.mk (capStr content m.2.2 1),
      line := String.mk (capStr content m.2.2 2),
      message := String.mk (pyStrip (capStr content m.2.2 4)),
      fix_suggestion := "Fix type annotation or adjust types" })

/-- Pattern of `_parse_pytest`: `FAILED` `\s+` lazy `(.+?)` `::` lazy `(.+?)`
`\s*` `-` `\s*` `(.+)`. -/
def pytestRE : RE :=
  reSeq [reStr "FAILED", .plusC false pySpace, .group 1 (.plusC true anyCharNoNL),
    reStr "::", .group 2 (.plusC true anyCharNoNL), .starC false pySpace,
    reStr "-", .starC false pySpace, .group 3 (.plusC false anyCharNoNL)]

/-- `CIOutputParserTool._parse_pytest`. -/
def parse_pytest (content : Str) : List CIError :=
  (reFinditer content pytestRE).map (fun m =>
    { tool := "pytest", type := "Test Failure", severity := "critical",
      file := String.mk (capStr content m.2.2 1), line := "",
      message := "Test failed: " ++ String.mk (capStr content m.2.2 2) ++ " - "
        ++ String.mk (capStr content m.2.2 3),
      fix_suggestion := "Review test logic and fix failing assertions" })

/-- Pattern of `_parse_build_errors`: `(?:Error|ERROR)` `:` `\s*` lazy `(.+?)`
followed by a lookahead for `\n` or end of input. -/
def buildRE : RE :=
  reSeq [.alt (reStr "Error") (reStr "ERROR"), reStr ":", .starC false pySpace,
    .group 1 (.plusC true anyCharNoNL), .look (.alt (reStr "\n") (.eol false))]

/-- Tool names checked by the suppression heuristic of `_parse_build_errors`. -/
def buildKnownTools : List String := ["sqlfluff", "stylelint", "eslint", "mypy", "ruff"]

/-- The 50-character window preceding offset `s`:
Python `content[max(0, s - 50) : s]`. -/
def buildWindow (content : Str) (s : Nat) : Str := (content.take s).drop (s - 50)

/-- Suppression heuristic of `_parse_build_errors`: some known tool name occurs
in the 50 characters preceding the match start. -/
def buildAttributed (content : Str) (s : Nat) : Bool :=
  buildKnownTools.any (fun t => containsStr (buildWindow content s) t.data)

/-- The finding `_parse_build_errors` appends for one unsuppressed match. -/
def buildErrorOf (content : Str) (m : Nat × Nat × Caps) : CIError :=
  { tool := "build", type := "Build Error", severity := "critical",
    file := "", line := "",
    message := String.mk (pyStrip (capStr content m.2.2 1)),
    fix_suggestion := "Review build configuration and dependencies" }

/-- `CIOutputParserTool._parse_build_errors`: for each match of `buildRE`, skip
it when `buildAttributed` holds at its start, else append a critical finding. -/
def parse_build_errors (content : Str) : List CIError :=
  (reFinditer content buildRE).foldl
    (fun errs m =>
      if buildAttributed content m.1 then errs else errs ++ [buildErrorOf content m]) []

/-- `CIOutputParserTool._parse_job_log` (file reading elided): run the twelve
parsers over the raw log text, in source order, and concatenate their
findings.  No ANSI stripping happens here. -/
def parse_job_log (content : Str) : List CIError :=
  parse_sqlfluff content ++ parse_stylelint content ++ parse_markdownlint content
    ++ parse_commitlint content ++ parse_prettier content ++ parse_black content
    ++ parse_isort content ++ parse_ruff content ++ parse_eslint content
    ++ parse_mypy content ++ parse_pytest content ++ parse_build_errors content

/-- Modelled from the spec: the variant of the stylelint parser used by the
centralized-preprocessing pipeline of section 4.3, which receives already
ANSI-stripped text and therefore performs no stripping of its own
(the spec requires stripping to happen once, centrally, not per parser). -/
def parse_stylelint_nostrip (content : Str) : List CIError :=
  match reSearch content stylelintSectionRE with
  | none => []
  | some (_, _, caps) =>
    match capBounds caps 1 with
    | none => []
    | some (a, b) => stylelintFindings (sliceStr content a b)

/-- Modelled from the spec: the pipeline claimed by section 4.3 and the design
notes, in which ANSI escape sequences are stripped exactly once, centrally,
before any parser runs, and every parser receives the identical preprocessed
text. -/
def parse_job_log_central (content : Str) : List CIError :=
  let t := stripAnsi content
  parse_sqlfluff t ++ parse_stylelint_nostrip t ++ parse_markdownlint t
    ++ parse_commitlint t ++ parse_prettier t ++ parse_black t
    ++ parse_isort t ++ parse_ruff t ++ parse_eslint t
    ++ parse_mypy t ++ parse_pytest t ++ parse_build_errors t

/-- Modelled from the claim: the generic build-error parser as claim C7 states
it, suppressing a match when any of the eleven other tool names occurs in the
50 characters preceding the match (the source checks only five names). -/
def buildFindingsElevenTools (content : Str) : List CIError :=
  (reFinditer content buildRE).foldl
    (fun errs m =>
      if (["sqlfluff", "stylelint", "markdownlint", "commitlint", "prettier",
          "black", "isort", "ruff", "eslint", "mypy", "pytest"].any
            (fun t => containsStr (buildWindow content m.1) t.data))
      then errs else errs ++ [buildErrorOf content m]) []

/-- The fields of `CISummary` that the aggregation logic of
`CIOutputParserTool._run` computes (lines 76..153).  The prose fields
`summary`, `checks_performed`, `jobs_analyzed` and `issue_analysis` are not
modelled; no claim mentions them. -/
structure CISummary where
  status : String
  passed : Bool
  critical_errors : List CIError
  warnings : List CIError
  info : List CIError
deriving DecidableEq, Repr

/-- One iteration of the severity-bucketing loop of `_run` (lines 122..128):
`critical` findings go to `critical_errors`, `warning` findings to `warnings`,
anything else to `info`. -/
def addToBucket (s : CISummary) (e : CIError) : CISummary :=
  if e.severity = "critical" then { s with critical_errors := s.critical_errors ++ [e] }
  else if e.severity = "warning" then { s with warnings := s.warnings ++ [e] }
  else { s with info := s.info ++ [e] }

/-- The aggregation logic of `CIOutputParserTool._run`, as a function of the
externally supplied baseline result (`core_ci_result`) and of the findings
collected from all analyzed jobs (`all_errors`).  Initial state: status is the
baseline, passed iff the baseline equals "success"; then the severity buckets
are filled; then the status-override chain of lines 135..152 runs. -/
def runAggregate (core : String) (allErrors : List CIError) : CISummary :=
  let s := allErrors.foldl addToBucket
    { status := core, passed := core = "success",
      critical_errors := [], warnings := [], info := [] }
  let totalErrors := s.critical_errors.length
  let totalWarnings := s.warnings.length
  if core = "success" ∧ totalErrors = 0 then s
  else if 0 < totalErrors then { s with status := "failure", passed := false }
  else if 0 < totalWarnings then { s with status := "warning" }
  else s

/-- Modelled from the spec: the ordered status policy of section 4.4, as a
function of the baseline and of the two bucket sizes. -/
def specStatus (core : String) (critN warnN : Nat) : String :=
  if core = "success" ∧ critN = 0 then "success"
  else if critN ≠ 0 then "failure"
  else if warnN ≠ 0 then "warning"
  else core

/-- Result of `ReadFullLogTool._run` (ci_tools.py lines 265..308).  The prose
around the returned content (header, size line, code fences) is elided; the
constructor records which branch produced the result and the content that the
reply embeds. -/
inductive ReadFullResult where
  | noLog : ReadFullResult
  | tooLarge : ReadFullResult
  | content (truncated : Bool) (text : Str) : ReadFullResult
deriving DecidableEq, Repr

/-- Python text-mode line iteration (`for line in f`): split after each
newline, keeping the newline characters; a trailing piece without a newline is
kept, an empty trailing piece is not produced. -/
def splitLinesKeep : Str → List Str
  | [] => []
  | c :: cs =>
    if c = '\n' then ['\n'] :: splitLinesKeep cs
    else
      match splitLinesKeep cs with
      | [] => [[c]]
      | l :: ls => (c :: l) :: ls

/-- `ReadFullLogTool._run`, with the log file given as its text (`file`) whose
length is its size in bytes (the logs are ASCII).  The guard compares
`size_kb = st_size / 1024 > 200` in floats, which is exact: it holds iff
`st_size > 204800`.  The `TooLarge` branch returns the remediation message
(use Check Log Size, then Search Log or `max_lines`); `max_lines = some 0` is
falsy in Python, so it reads the whole file like `none` does, but without
tripping the guard. -/
def readFullLog (logExists : Bool) (file : Str) (max_lines : Option Nat) : ReadFullResult :=
  if ¬ logExists then .noLog
  else if 204800 < file.length ∧ max_lines = none then .tooLarge
  else
    match max_lines with
    | some n =>
      if n ≠ 0 then .content true (((splitLinesKeep file).take n).flatten)
      else .content false file
    | none => .content false file

/-- One search hit of `SearchLogTool._run`: the dict
`{line_number, match, context}` built at ci_tools.py lines 217..221, with the
context kept as the list of log lines of the slice `lines[start:end]`. -/
structure SearchMatch where
  line_number : Nat
  matched : Str
  context : List Str
deriving DecidableEq, Repr

/-- The context slice for a hit at line index `i`:
`lines[max(0, i - contextLines) : min(len(lines), i + contextLines + 1)]`. -/
def searchContext (lines : List Str) (ctx i : Nat) : List Str :=
  (lines.drop (i - ctx)).take (min lines.length (i + ctx + 1) - (i - ctx))

/-- The hit appended for a match at line index `i`: line number is `i + 1`,
the matched line is stripped, the context is the clamped slice. -/
def searchHit (lines : List Str) (ctx i : Nat) (line : Str) : SearchMatch :=
  { line_number := i + 1, matched := pyStrip line, context := searchContext lines ctx i }

/-- The scanning loop of `SearchLogTool._run` (lines 212..225): `i` is the
index of the first line of `rest` within `lines`; each matching line appends a
hit, and the loop stops as soon as the accumulated hits reach `maxMatches`. -/
def searchLogAux (p : Str → Bool) (ctx maxMatches : Nat) (lines : List Str) :
    Nat → List Str → List SearchMatch → List SearchMatch
  | _, [], acc => acc
  | i, line :: rest, acc =>
    if p line then
      let acc2 := acc ++ [searchHit lines ctx i line]
      if maxMatches ≤ acc2.length then acc2
      else searchLogAux p ctx maxMatches lines (i + 1) rest acc2
    else searchLogAux p ctx maxMatches lines (i + 1) rest acc

/-- `SearchLogTool._run` over the lines of an existing log file.  The compiled
case-insensitive regex is abstracted as the line predicate `p` (the code only
ever asks whether `pattern_re.search(line)` holds); the rendered reply string
is elided, the list of hits is returned. -/
def searchLog (p : Str → Bool) (ctx maxMatches : Nat) (lines : List Str) : List SearchMatch :=
  searchLogAux p ctx maxMatches lines 0 lines []

/-- Python `s.startswith(pre)`. -/
def pyStartsWith (s pre : Str) : Bool := pre.isPrefixOf s

/-- An immediate child of the results root, as `_discover_jobs` inspects it:
its name, whether it is a directory, and whether it contains a `log.txt`. -/
structure DirEntry where
  name : Str
  isDir : Bool
  hasLogTxt : Bool
deriving DecidableEq, Repr

/-- The record `_discover_jobs` appends per discovered job. -/
structure JobRecord where
  job_name : Str
  job_folder : Str
  conclusion : String
  log_exists : Bool
deriving DecidableEq, Repr

/-- `CIOutputParserTool._discover_jobs` (lines 176..197), with the filesystem
presented as `none` (results root missing) or `some entries` (the immediate
children of the root, in iteration order): directories whose name does not
start with a dot and which contain a `log.txt` become jobs with conclusion
`unknown`. -/
def discover_jobs (root : Option (List DirEntry)) : List JobRecord :=
  match root with
  | none => []
  | some entries =>
    entries.foldl
      (fun jobs e =>
        if e.isDir ∧ ¬ pyStartsWith e.name ".".data then
          if e.hasLogTxt then
            jobs ++ [{ job_name := e.name, job_folder := e.name,
                       conclusion := "unknown", log_exists := true }]
          else jobs
        else jobs) []

/-- The numeric facts stated by the truncation notice of `WorkspaceTool.read`
(lines 131..136): original size, bytes shown from the start and from the end,
and bytes omitted from the middle.  The decorative text and number formatting
of the f-string are elided. -/
structure TruncationNotice where
  original_size : Nat
  shown_head : Nat
  shown_tail : Nat
  omitted : Nat
deriving DecidableEq, Repr

/-- Result of `WorkspaceTool.read`.  `missing` stands for the empty-string
return on a missing file; `full` is the untruncated read; `truncated` carries
the three parts of the bounded read: head, tail, and the truncation notice
placed between them in the returned string. -/
inductive WorkspaceReadResult where
  | missing : WorkspaceReadResult
  | full (content : Str) : WorkspaceReadResult
  | truncated (head tail : Str) (notice : TruncationNotice) : WorkspaceReadResult
deriving DecidableEq, Repr

/-- `MAX_FILE_SIZE` of workspace_tool.py: 100 KB. -/
def MAX_FILE_SIZE : Nat := 100 * 1024

/-- `TRUNCATE_CONTEXT_SIZE` of workspace_tool.py: 30 KB. -/
def TRUNCATE_CONTEXT_SIZE : Nat := 30 * 1024

/-- `WorkspaceTool.read` (lines 96..149), with the file given as its text,
whose length is its size in bytes.  Files of at most `MAX_FILE_SIZE` bytes are
returned whole; larger files yield the first `TRUNCATE_CONTEXT_SIZE` bytes,
the bytes from offset `file_size - TRUNCATE_CONTEXT_SIZE` to the end, and the
truncation notice. -/
def workspaceRead (fileExists : Bool) (file : Str) : WorkspaceReadResult :=
  if ¬ fileExists then .missing
  else
    let file_size := file.length
    if file_size ≤ MAX_FILE_SIZE then .full file
    else
      let start_content := file.take TRUNCATE_CONTEXT_SIZE
      let end_content := file.drop (file_size - TRUNCATE_CONTEXT_SIZE)
      let truncated_size := start_content.length + end_content.length
      .truncated start_content end_content
        { original_size := file_size, shown_head := start_content.length,
          shown_tail := end_content.length, omitted := file_size - truncated_size }

theorem addToBucket_status (s : CISummary) (e : CIError) :
    (addToBucket s e).status = s.status := by
  unfold addToBucket; split_ifs <;> rfl

theorem addToBucket_passed (s : CISummary) (e : CIError) :
    (addToBucket s e).passed = s.passed := by
  unfold addToBucket; split_ifs <;> rfl

theorem foldl_addToBucket_status (l : List CIError) (s : CISummary) :
    (l.foldl addToBucket s).status = s.status := by
  induction l generalizing s with
  | nil => rfl
  | cons e t ih => simp [List.foldl_cons, ih, addToBucket_status]

theorem foldl_addToBucket_passed (l : List CIError) (s : CISummary) :
    (l.foldl addToBucket s).passed = s.passed := by
  induction l generalizing s with
  | nil => rfl
  | cons e t ih => simp [List.foldl_cons, ih, addToBucket_passed]

theorem foldl_addToBucket_critical (l : List CIError) (s : CISummary) :
    (l.foldl addToBucket s).critical_errors =
      s.critical_errors ++ l.filter (fun e => e.severity == "critical") := by
  induction l generalizing s with
  | nil => simp
  | cons e t ih =>
    simp only [List.foldl_cons, ih, List.filter_cons]
    unfold addToBucket
    by_cases h1 : e.severity = "critical"
    · simp [h1]
    · by_cases h2 : e.severity = "warning" <;> simp [h1, h2]

theorem foldl_addToBucket_warnings (l : List CIError) (s : CISummary) :
    (l.foldl addToBucket s).warnings =
      s.warnings ++ l.filter (fun e => e.severity == "warning") := by
  induction l generalizing s with
  | nil => simp
  | cons e t ih =>
    simp only [List.foldl_cons, ih, List.filter_cons]
    unfold addToBucket
    by_cases h1 : e.severity = "critical"
    · have : e.severity ≠ "warning" := by simp [h1]
      simp [h1, this]
    · by_cases h2 : e.severity = "warning" <;> simp [h1, h2]

theorem foldl_addToBucket_info (l : List CIError) (s : CISummary) :
    (l.foldl addToBucket s).info =
      s.info ++ l.filter (fun e => e.severity != "critical" && e.severity != "warning") := by
  induction l generalizing s with
  | nil => simp
  | cons e t ih =>
    simp only [List.foldl_cons, ih, List.filter_cons]
    unfold addToBucket
    by_cases h1 : e.severity = "critical"
    · simp [h1]
    · by_cases h2 : e.severity = "warning" <;> simp [h1, h2]

theorem severity_filter_partition (l : List CIError) :
    (l.filter (fun e => e.severity == "critical")).length
      + (l.filter (fun e => e.severity == "warning")).length
      + (l.filter (fun e => e.severity != "critical" && e.severity != "warning")).length
      = l.length := by
  induction l with
  | nil => rfl
  | cons e t ih =>
    simp only [List.filter_cons]
    by_cases h1 : e.severity = "critical"
    · have : e.severity ≠ "warning" := by simp [h1]
      simp [h1, this]; omega
    · by_cases h2 : e.severity = "warning"
      · simp [h1, h2]; omega
      · simp [h1, h2]; omega

theorem runAggregate_critical (core : String) (errs : List CIError) :
    (runAggregate core errs).critical_errors =
      errs.filter (fun e => e.severity == "critical") := by
  unfold runAggregate
  simp only [foldl_addToBucket_critical, foldl_addToBucket_warnings, List.nil_append]
  split_ifs <;> simp [foldl_addToBucket_critical]

theorem runAggregate_warnings (core : String) (errs : List CIError) :
    (runAggregate core errs).warnings =
      errs.filter (fun e => e.severity == "warning") := by
  unfold runAggregate
  simp only [foldl_addToBucket_critical, foldl_addToBucket_warnings, List.nil_append]
  split_ifs <;> simp [foldl_addToBucket_warnings]

theorem runAggregate_info (core : String) (errs : List CIError) :
    (runAggregate core errs).info =
      errs.filter (fun e => e.severity != "critical" && e.severity != "warning") := by
  unfold runAggregate
  simp only [foldl_addToBucket_critical, foldl_addToBucket_warnings,
    foldl_addToBucket_info, List.nil_append]
  split_ifs <;> simp [foldl_addToBucket_info]

/-- C1: for every baseline result string and every list of findings produced
by the parsers, the status of the report follows the ordered policy: success
baseline with no critical findings gives success; otherwise any critical
finding forces failure, overriding the baseline; otherwise any warning gives
warning; otherwise the baseline passes through unchanged. -/
theorem C1_status_policy (core : String) (errs : List CIError) :
    (runAggregate core errs).status =
      specStatus core (errs.filter (fun e => e.severity == "critical")).length
        (errs.filter (fun e => e.severity == "warning")).length := by
  unfold runAggregate specStatus
  simp only [foldl_addToBucket_critical, foldl_addToBucket_warnings, List.nil_append]
  split_ifs with h1 h2 h3 h4 h5 h6 h7 h8 h9
  all_goals
    first
      | rfl
      | omega
      | simp [foldl_addToBucket_status, h1.1]
      | simp [foldl_addToBucket_status]

/-- C2: the three severity buckets of the report partition the findings: the
sum of their sizes equals the number of findings emitted by all parsers, so no
finding is dropped and none is double-counted. -/
theorem C2_bucket_partition (core : String) (errs : List CIError) :
    (runAggregate core errs).critical_errors.length
      + (runAggregate core errs).warnings.length
      + (runAggregate core errs).info.length = errs.length := by
  rw [runAggregate_critical, runAggregate_warnings, runAggregate_info]
  exact severity_filter_partition errs

/-- C10: the passed flag of the report is true exactly when the baseline is
"success" and there is no critical finding; warnings and info findings never
change it, and a non-success baseline never yields passed. -/
theorem C10_passed_iff (core : String) (errs : List CIError) :
    (runAggregate core errs).passed = true ↔
      core = "success" ∧ errs.filter (fun e => e.severity == "critical") = [] := by
  unfold runAggregate
  simp only [foldl_addToBucket_critical, List.nil_append]
  split_ifs with h1 h2 h3
  · simp only [foldl_addToBucket_passed]
    simp [h1.1, List.length_eq_zero.mp h1.2]
  · constructor
    · intro h; simp at h
    · rintro ⟨-, hnil⟩
      rw [hnil] at h2; simp at h2
  · have hc : (errs.filter (fun e => e.severity == "critical")).length = 0 := by omega
    have hcore : core ≠ "success" := fun hs => h1 ⟨hs, hc⟩
    simp only [foldl_addToBucket_passed]
    simp [hcore]
  · have hc : (errs.filter (fun e => e.severity == "critical")).length = 0 := by omega
    have hcore : core ≠ "success" := fun hs => h1 ⟨hs, hc⟩
    simp only [foldl_addToBucket_passed]
    simp [hcore]

/-- C3 counterexample: a log of exactly 200 KB (204800 bytes) is in the
`large` size class of the spec (at least 200 KB), yet `readFullLog` without a
bound reads it in full instead of returning the TooLarge signal, because the
guard in the source is a strict `>` comparison. -/
theorem C3_counterexample :
    204800 ≤ (List.replicate 204800 'a' : Str).length ∧
      readFullLog true (List.replicate 204800 'a') none ≠ ReadFullResult.tooLarge := by
  have hlen : (List.replicate 204800 'a' : Str).length = 204800 := List.length_replicate 204800 'a'
  constructor
  · rw [hlen]
  · unfold readFullLog
    rw [hlen]
    simp only [not_true, lt_self_iff_false, false_and, if_false, ite_false]
    exact fun h => ReadFullResult.noConfusion h

/-- C3 (amended): for every log file strictly larger than 200 KB (204800
bytes), `readFullLog` without a maxLines bound returns the distinct TooLarge
signal rather than the file content or an exception. -/
theorem C3_tooLarge_over_threshold (file : Str) (h : 204800 < file.length) :
    readFullLog true file none = ReadFullResult.tooLarge := by
  unfold readFullLog
  simp [h]

theorem C3_tooLarge_witness :
    readFullLog true (List.replicate 204801 'a') none = ReadFullResult.tooLarge :=
  C3_tooLarge_over_threshold _ (by rw [List.length_replicate]; omega)

/-- C5: for every log file strictly under 50 KB (51200 bytes), `readFullLog`
called without maxLines returns the file content unchanged, byte for byte. -/
theorem C5_small_read_identity (file : Str) (h : file.length < 51200) :
    readFullLog true file none = ReadFullResult.content false file := by
  have h2 : ¬ 204800 < file.length := by omega
  unfold readFullLog
  simp [h2]

theorem C5_small_read_witness :
    "hello\nworld\n".data.length < 51200 ∧
      readFullLog true "hello\nworld\n".data none =
        ReadFullResult.content false "hello\nworld\n".data :=
  ⟨by decide, C5_small_read_identity _ (by decide)⟩

/-- C9: a workspace file strictly over the 100 KB threshold is returned as
exactly three parts: the first 30 KB of the file, the last 30 KB of the file,
and the truncation notice stating the original size, the bytes shown from each
end, and the bytes omitted; a file at or under the threshold is returned in
full, unmodified. -/
theorem C9_workspace_read_bounds (file : Str) :
    (102400 < file.length →
      workspaceRead true file =
        WorkspaceReadResult.truncated (file.take 30720) (file.drop (file.length - 30720))
          { original_size := file.length, shown_head := 30720,
            shown_tail := 30720, omitted := file.length - 61440 }) ∧
    (file.length ≤ 102400 → workspaceRead true file = WorkspaceReadResult.full file) := by
  constructor
  · intro h
    have h1 : ¬ file.length ≤ 100 * 1024 := by omega
    have ht : (file.take 30720).length = 30720 := by
      simp only [List.length_take]
      omega
    have hd : (file.drop (file.length - 30720)).length = 30720 := by
      simp only [List.length_drop]
      omega
    unfold workspaceRead MAX_FILE_SIZE TRUNCATE_CONTEXT_SIZE
    simp only [h1, if_false, Bool.not_true, ht, hd]
    norm_num
  · intro h
    unfold workspaceRead MAX_FILE_SIZE
    have h1 : file.length ≤ 100 * 1024 := by omega
    simp [h1]

theorem C9_workspace_read_witness :
    workspaceRead true (List.replicate 102401 'a') =
      WorkspaceReadResult.truncated (List.replicate 30720 'a') (List.replicate 30720 'a')
        { original_size := 102401, shown_head := 30720,
          shown_tail := 30720, omitted := 40961 } ∧
    workspaceRead true "hi".data = WorkspaceReadResult.full "hi".data := by
  constructor
  · have h := (C9_workspace_read_bounds (List.replicate 102401 'a')).1
      (by rw [List.length_replicate]; omega)
    rw [List.length_replicate] at h
    have e1 : (List.replicate 102401 'a').take 30720 = List.replicate 30720 'a' := by
      rw [List.take_replicate]
      congr 1
    have e2 : (List.replicate 102401 'a').drop (102401 - 30720) = List.replicate 30720 'a' := by
      rw [List.drop_replicate]
    have e3 : (102401 : Nat) - 61440 = 40961 := by norm_num
    rw [e1, e2, e3] at h
    exact h
  · exact (C9_workspace_read_bounds "hi".data).2 (by decide)

theorem searchLogAux_length_le (p : Str → Bool) (ctx N : Nat) (lines : List Str) :
    ∀ (rest : List Str) (i : Nat) (acc : List SearchMatch), acc.length < N →
      (searchLogAux p ctx N lines i rest acc).length ≤ N := by
  intro rest
  induction rest with
  | nil => intro i acc h; unfold searchLogAux; omega
  | cons line rs ih =>
    intro i acc h
    unfold searchLogAux
    by_cases hp : p line
    · simp only [if_pos hp]
      by_cases hstop : N ≤ (acc ++ [searchHit lines ctx i line]).length
      · simp only [if_pos hstop]
        simp only [List.length_append, List.length_cons, List.length_nil] at hstop ⊢
        omega
      · simp only [if_neg hstop]
        refine ih (i + 1) _ ?_
        simp only [List.length_append, List.length_cons, List.length_nil] at hstop ⊢
        omega
    · simp only [if_neg hp]
      exact ih (i + 1) acc h

theorem searchLogAux_mem (p : Str → Bool) (ctx N : Nat) (lines : List Str) :
    ∀ (rest : List Str) (i : Nat) (acc : List SearchMatch),
      rest = lines.drop i →
      ∀ m ∈ searchLogAux p ctx N lines i rest acc,
        m ∈ acc ∨ ∃ j, ∃ hj : j < lines.length,
          p (lines.get ⟨j, hj⟩) = true ∧ m = searchHit lines ctx j (lines.get ⟨j, hj⟩) := by
  intro rest
  induction rest with
  | nil =>
    intro i acc _ m hm
    unfold searchLogAux at hm
    exact Or.inl hm
  | cons line rs ih =>
    intro i acc hrest m hm
    have hi : i < lines.length := by
      by_contra hge
      have hnil : lines.drop i = [] := List.drop_eq_nil_of_le (by omega)
      rw [hnil] at hrest
      exact absurd hrest (by simp)
    have hdrop : lines.drop i = lines.get ⟨i, hi⟩ :: lines.drop (i + 1) := by
      rw [List.drop_eq_getElem_cons hi]
      simp
    rw [hdrop] at hrest
    injection hrest with hline hrs
    unfold searchLogAux at hm
    by_cases hp : p line
    · simp only [if_pos hp] at hm
      by_cases hstop : N ≤ (acc ++ [searchHit lines ctx i line]).length
      · simp only [if_pos hstop] at hm
        rcases List.mem_append.mp hm with hacc | hnew
        · exact Or.inl hacc
        · refine Or.inr ⟨i, hi, ?_, ?_⟩
          · rw [← hline]; exact hp
          · rw [← hline]; simpa using hnew
      · simp only [if_neg hstop] at hm
        rcases ih (i + 1) _ hrs m hm with hacc | hj
        · rcases List.mem_append.mp hacc with hacc2 | hnew
          · exact Or.inl hacc2
          · refine Or.inr ⟨i, hi, ?_, ?_⟩
            · rw [← hline]; exact hp
            · rw [← hline]; simpa using hnew
        · exact Or.inr hj
    · simp only [if_neg hp] at hm
      exact ih (i + 1) acc hrs m hm

/-- C4 (amended): for every line predicate, context width and bound
maxMatches of at least 1, the search returns at most maxMatches hits; every
hit comes from a matching line of the file, its context window is the slice
of the file clamped to the first and last line (so no access ever falls
outside the file and matches at the start or end of the file cannot error),
and the window never exceeds 2 * contextLines + 1 lines. -/
theorem C4_search_bounded (p : Str → Bool) (ctx N : Nat) (lines : List Str) (hN : 1 ≤ N) :
    (searchLog p ctx N lines).length ≤ N ∧
      ∀ m ∈ searchLog p ctx N lines,
        m.context.length ≤ 2 * ctx + 1 ∧
        ∃ j, ∃ hj : j < lines.length,
          p (lines.get ⟨j, hj⟩) = true ∧ m = searchHit lines ctx j (lines.get ⟨j, hj⟩) := by
  constructor
  · exact searchLogAux_length_le p ctx N lines lines 0 [] (by simpa using hN)
  · intro m hm
    rcases searchLogAux_mem p ctx N lines lines 0 [] (by simp) m hm with hacc | hj
    · simp at hacc
    · obtain ⟨j, hjlt, hpj, hmj⟩ := hj
      refine ⟨?_, j, hjlt, hpj, hmj⟩
      rw [hmj]
      show (searchContext lines ctx j).length ≤ 2 * ctx + 1
      unfold searchContext
      simp only [List.length_take, List.length_drop]
      omega

/-- C4 counterexample: with maxMatches = 0 the search still returns one hit on
a matching line, because the source appends the hit before comparing the count
against the bound — so the claim that search never returns more than
maxMatches hits fails at maxMatches = 0. -/
theorem C4_counterexample :
    ¬ ((searchLog (fun l => l == "x".data) 3 0 ["x".data]).length ≤ 0) := by decide

theorem C4_search_bounded_witness :
    (searchLog (fun l => l == "a".data) 1 2 ["a".data, "b".data, "a".data, "a".data]).length ≤ 2 ∧
      ∀ m ∈ searchLog (fun l => l == "a".data) 1 2 ["a".data, "b".data, "a".data, "a".data],
        m.context.length ≤ 2 * 1 + 1 ∧
        ∃ j, ∃ hj : j < (["a".data, "b".data, "a".data, "a".data] : List Str).length,
          ((["a".data, "b".data, "a".data, "a".data] : List Str).get ⟨j, hj⟩ == "a".data) = true ∧
          m = searchHit ["a".data, "b".data, "a".data, "a".data] 1 j
                ((["a".data, "b".data, "a".data, "a".data] : List Str).get ⟨j, hj⟩) :=
  C4_search_bounded (fun l => l == "a".data) 1 2
    ["a".data, "b".data, "a".data, "a".data] (by decide)

/-- C8 counterexample: a results root whose only subdirectory is named
`.hidden` and contains a `log.txt`.  The claim predicts one JobRecord per
subdirectory containing a log, but the source skips directories whose name
starts with a dot, so discovery yields none. -/
theorem C8_counterexample :
    (discover_jobs (some [{ name := ".hidden".data, isDir := true, hasLogTxt := true }])).length ≠
      (([{ name := ".hidden".data, isDir := true, hasLogTxt := true }] : List DirEntry).filter
        (fun e => e.isDir && e.hasLogTxt)).length := by decide

theorem discover_jobs_foldl (entries : List DirEntry) :
    ∀ acc : List JobRecord,
      entries.foldl
        (fun jobs e =>
          if e.isDir ∧ ¬ pyStartsWith e.name ".".data then
            if e.hasLogTxt then
              jobs ++ [{ job_name := e.name, job_folder := e.name,
                         conclusion := "unknown", log_exists := true }]
            else jobs
          else jobs) acc =
      acc ++ (entries.filter
          (fun e => e.isDir && !(pyStartsWith e.name ".".data) && e.hasLogTxt)).map
        (fun e => { job_name := e.name, job_folder := e.name,
                    conclusion := "unknown", log_exists := true }) := by
  induction entries with
  | nil => intro acc; simp
  | cons e t ih =>
    intro acc
    simp only [List.foldl_cons, List.filter_cons]
    by_cases h1 : e.isDir = true
    · by_cases h2 : pyStartsWith e.name ".".data = true
      · rw [if_neg (by simp [h2]), if_neg (by simp [h2])]
        exact ih acc
      · by_cases h3 : e.hasLogTxt = true
        · rw [if_pos ⟨h1, h2⟩, if_pos h3, if_pos (by simp [h1, h2, h3]), ih]
          simp
        · rw [if_pos ⟨h1, h2⟩, if_neg h3, if_neg (by simp [h3])]
          exact ih acc
    · rw [if_neg (by simp [h1]), if_neg (by simp [h1])]
      exact ih acc

/-- C8 (amended): for a results root without a job-index file, discovery
yields exactly one JobRecord with conclusion "unknown" for each immediate
subdirectory whose name does not start with a dot and which contains a
`log.txt`; a missing results root yields the empty list, not an error. -/
theorem C8_discovery (entries : List DirEntry) :
    discover_jobs none = [] ∧
      discover_jobs (some entries) =
        (entries.filter
            (fun e => e.isDir && !(pyStartsWith e.name ".".data) && e.hasLogTxt)).map
          (fun e => { job_name := e.name, job_folder := e.name,
                      conclusion := "unknown", log_exists := true }) := by
  refine ⟨rfl, ?_⟩
  have hstep : discover_jobs (some entries) =
      entries.foldl
        (fun jobs e =>
          if e.isDir ∧ ¬ pyStartsWith e.name ".".data then
            if e.hasLogTxt then
              jobs ++ [{ job_name := e.name, job_folder := e.name,
                         conclusion := "unknown", log_exists := true }]
            else jobs
          else jobs) [] := rfl
  rw [hstep, discover_jobs_foldl entries []]
  simp

theorem stripAnsiAux_of_not_mem :
    ∀ (fuel : Nat) (s : Str), '\x1b' ∉ s → stripAnsiAux fuel s = s := by
  intro fuel
  induction fuel with
  | zero => intro s _; cases s <;> rfl
  | succ n ih =>
    intro s h
    cases s with
    | nil => rfl
    | cons c cs =>
      have hc : c ≠ '\x1b' := fun e => h (e ▸ List.mem_cons_self c cs)
      have hcs : '\x1b' ∉ cs := fun e => h (List.mem_cons_of_mem c e)
      unfold stripAnsiAux
      rw [if_neg (fun e => hc e), ih cs hcs]

theorem stripAnsi_of_not_mem (s : Str) (h : '\x1b' ∉ s) : stripAnsi s = s :=
  stripAnsiAux_of_not_mem s.length s h

theorem parse_stylelint_noEsc (content : Str) (h : '\x1b' ∉ content) :
    parse_stylelint content = parse_stylelint_nostrip content := by
  unfold parse_stylelint parse_stylelint_nostrip
  cases hs : reSearch content stylelintSectionRE with
  | none => rfl
  | some x =>
    obtain ⟨s0, e0, caps⟩ := x
    show (match capBounds caps 1 with
      | none => ([] : List CIError)
      | some (a, b) => stylelintFindings (stripAnsi (sliceStr content a b))) =
      (match capBounds caps 1 with
      | none => ([] : List CIError)
      | some (a, b) => stylelintFindings (sliceStr content a b))
    cases hb : capBounds caps 1 with
    | none => rfl
    | some ab =>
      obtain ⟨a, b⟩ := ab
      show stylelintFindings (stripAnsi (sliceStr content a b)) =
        stylelintFindings (sliceStr content a b)
      have hsub : '\x1b' ∉ sliceStr content a b := by
        intro hm
        unfold sliceStr at hm
        exact h (List.drop_subset a content (List.take_subset _ _ hm))
      rw [stripAnsi_of_not_mem _ hsub]

/-- C6 (amended): the source performs no central ANSI stripping; only the
stylelint parser strips escape codes, inside its own extracted section.  On
any log without an ESC character the pipeline agrees with the
centrally-stripped pipeline the spec describes; on logs containing ANSI
escapes a non-stylelint parser can see the raw escape bytes and its findings
can differ (see the counterexample). -/
theorem C6_no_central_strip_agreement (content : Str) (h : '\x1b' ∉ content) :
    parse_job_log content = parse_job_log_central content := by
  simp only [parse_job_log, parse_job_log_central]
  rw [stripAnsi_of_not_mem content h, parse_stylelint_noEsc content h]

theorem C6_agreement_witness :
    parse_job_log "README.md:3 MD013 Line length".data =
      parse_job_log_central "README.md:3 MD013 Line length".data :=
  C6_no_central_strip_agreement _ (by decide)

/-- C6 counterexample: a markdownlint-style line prefixed by the ANSI color
code ESC `[31m`.  The twelve-parser pipeline of the source runs on the raw
text and markdownlint captures the escape bytes into the file field, whereas
the centrally-stripped pipeline the claim describes produces the clean file
name — so the two pipelines disagree and ANSI is not stripped before the
parsers run. -/
theorem C6_counterexample :
    parse_job_log "\x1b[31mREADME.md:3 MD013 Line length".data ≠
      parse_job_log_central "\x1b[31mREADME.md:3 MD013 Line length".data := by decide

/-- C7 (amended): the generic build-error parser emits one always-critical
finding per `Error:`/`ERROR:` match that is not attributed to another tool,
where attribution checks whether one of the five names sqlfluff, stylelint,
eslint, mypy, ruff (not all eleven other tools) occurs in the 50 characters
preceding the match; attributed matches produce no finding. -/
theorem C7_build_errors (content : Str) :
    parse_build_errors content =
      ((reFinditer content buildRE).filter
          (fun m => !(buildAttributed content m.1))).map (buildErrorOf content) ∧
      ∀ e ∈ parse_build_errors content, e.severity = "critical" ∧ e.tool = "build" := by
  have keyfold : ∀ (ms : List (Nat × Nat × Caps)) (acc : List CIError),
      ms.foldl (fun errs m => if buildAttributed content m.1 then errs
        else errs ++ [buildErrorOf content m]) acc =
      acc ++ (ms.filter (fun m => !(buildAttributed content m.1))).map (buildErrorOf content) := by
    intro ms
    induction ms with
    | nil => intro acc; simp
    | cons m t ih =>
      intro acc
      simp only [List.foldl_cons, List.filter_cons]
      by_cases hA : buildAttributed content m.1 = true
      · rw [if_pos hA, ih, if_neg (by simp [hA])]
      · rw [if_neg hA, ih, if_pos (by simp [hA])]
        simp
  have hmain : parse_build_errors content =
      ((reFinditer content buildRE).filter
        (fun m => !(buildAttributed content m.1))).map (buildErrorOf content) := by
    unfold parse_build_errors
    rw [keyfold]
    simp
  refine ⟨hmain, ?_⟩
  intro e he
  rw [hmain] at he
  obtain ⟨m, _, hme⟩ := List.mem_map.mp he
  rw [← hme]
  exact ⟨rfl, rfl⟩

theorem C7_build_errors_witness :
    parse_build_errors "ERROR: disk full".data =
      ((reFinditer "ERROR: disk full".data buildRE).filter
          (fun m => !(buildAttributed "ERROR: disk full".data m.1))).map
        (buildErrorOf "ERROR: disk full".data) ∧
      ∀ e ∈ parse_build_errors "ERROR: disk full".data,
        e.severity = "critical" ∧ e.tool = "build" :=
  C7_build_errors "ERROR: disk full".data

/-- C7 counterexample: the line `pytest Error: boom` has the tool name pytest
(one of the eleven other tools) within the 50 preceding characters, so the
claim says it is attributed and produces no build finding; the source checks
only five tool names, pytest is not among them, and it emits one critical
build finding. -/
theorem C7_counterexample :
    parse_build_errors "pytest Error: boom".data ≠
      buildFindingsElevenTools "pytest Error: boom".data := by decide
